import Mathlib

/-!
Shallow embedding of the `youtube-downloader` repository
(`src/validator.py`, `src/utils.py`, `src/downloader.py`) and proofs about it.

Strings from the Python side are modelled as Lean `String` / `List Char`
(Python `str` is a sequence of code points, as is `String.data`).
Python `None` becomes `Option.none`; exceptions become `Except`;
the filesystem existence check `os.path.exists` becomes an explicit
oracle parameter `fsExists : String → Bool`; the external extraction
service (`yt_dlp`) becomes an explicit behaviour parameter.
All real arithmetic that Python performs on floats is modelled with `ℚ`;
every value this code actually formats (byte counts divided by powers of
1024) is a dyadic rational that a double represents exactly, so the
rational model agrees with the float semantics on the inputs at issue.
-/

namespace YtDl

/-! ### URL validator (`src/validator.py`)

Each regex in `URLValidator.YOUTUBE_PATTERNS` has the shape
`^https?://(?:www\.)?LIT([a-zA-Z0-9_-]{11})` (the `youtu.be` pattern has no
`(?:www\.)?` group), applied with `re.match`, i.e. anchored at the start and
tolerating arbitrary trailing text.  The regex alternations are
deterministic on these patterns: after `http` the next mandatory character
is `:`, which is not `s`, so `s?` greedily consuming an `s` never needs
backtracking, and every literal after `(?:www\.)?` starts with `y ≠ w`, so
greedily consuming `www.` never needs backtracking either.  The matcher
below exploits that determinism. -/

/-- The character class `[a-zA-Z0-9_-]` of the video-id capture group. -/
def isIdChar (c : Char) : Bool :=
  c.isAlphanum || c = '_' || c = '-'

/-- Consume the literal `p` from the front of `s`, or fail. -/
def stripLit : List Char → List Char → Option (List Char)
  | [], s => some s
  | _ :: _, [] => none
  | p :: ps, c :: cs => if c = p then stripLit ps cs else none

/-- Consume exactly `n` id-class characters (the `{11}` capture), returning
the captured characters; anything may follow. -/
def takeId : Nat → List Char → Option (List Char)
  | 0, _ => some []
  | _ + 1, [] => none
  | n + 1, c :: cs => if isIdChar c then (takeId n cs).map (c :: ·) else none

/-- The optional `s` of `https?` (deterministic, see above). -/
def dropS : List Char → List Char
  | [] => []
  | c :: rest => if c = 's' then rest else c :: rest

/-- The optional `www.` of `(?:www\.)?` (deterministic, see above). -/
def dropWww (s : List Char) : List Char :=
  match stripLit ['w', 'w', 'w', '.'] s with
  | some r => r
  | none => s

/-- One entry of `YOUTUBE_PATTERNS`: whether the pattern has the
`(?:www\.)?` group, and the literal between the scheme and the capture. -/
structure UrlPattern where
  www : Bool
  lit : List Char
deriving DecidableEq

def litWatch : List Char :=
  ['y', 'o', 'u', 't', 'u', 'b', 'e', '.', 'c', 'o', 'm', '/',
   'w', 'a', 't', 'c', 'h', '?', 'v', '=']

def litV : List Char :=
  ['y', 'o', 'u', 't', 'u', 'b', 'e', '.', 'c', 'o', 'm', '/', 'v', '/']

def litEmbed : List Char :=
  ['y', 'o', 'u', 't', 'u', 'b', 'e', '.', 'c', 'o', 'm', '/',
   'e', 'm', 'b', 'e', 'd', '/']

def litShorts : List Char :=
  ['y', 'o', 'u', 't', 'u', 'b', 'e', '.', 'c', 'o', 'm', '/',
   's', 'h', 'o', 'r', 't', 's', '/']

def litYoutuBe : List Char :=
  ['y', 'o', 'u', 't', 'u', '.', 'b', 'e', '/']

def litLive : List Char :=
  ['y', 'o', 'u', 't', 'u', 'b', 'e', '.', 'c', 'o', 'm', '/',
   'l', 'i', 'v', 'e', '/']

/-- The list `URLValidator.YOUTUBE_PATTERNS`, in source order. -/
def YOUTUBE_PATTERNS : List UrlPattern :=
  [⟨true, litWatch⟩, ⟨true, litV⟩, ⟨true, litEmbed⟩, ⟨true, litShorts⟩,
   ⟨false, litYoutuBe⟩, ⟨true, litLive⟩]

/-- One pattern's `re.match(pattern, s)`, returning the capture group. -/
def matchPattern (p : UrlPattern) (s : List Char) : Option (List Char) :=
  match stripLit ['h', 't', 't', 'p'] s with
  | none => none
  | some s1 =>
    match stripLit [':', '/', '/'] (dropS s1) with
    | none => none
    | some s2 =>
      match stripLit p.lit (if p.www then dropWww s2 else s2) with
      | none => none
      | some s3 => takeId 11 s3

/-- Model of `URLValidator.validate`: `False` on empty input, else `True` on the
first matching pattern. -/
def validate (url : String) : Bool :=
  match url.data with
  | [] => false
  | _ => YOUTUBE_PATTERNS.any fun p => (matchPattern p url.data).isSome

/-- Model of `URLValidator.extract_video_id`: `None` on empty input, else the capture
of the first matching pattern. -/
def extract_video_id (url : String) : Option String :=
  match url.data with
  | [] => none
  | _ => (YOUTUBE_PATTERNS.findSome? fun p => matchPattern p url.data).map
      fun cs => String.mk cs

/-- Character list of a URL of one of the six shapes: scheme (`http` or
`https`), optional `www.`, the pattern's literal, an id, arbitrary
trailing text. -/
def urlChars (secure www : Bool) (lit id trailing : List Char) : List Char :=
  ['h', 't', 't', 'p'] ++ (if secure then ['s'] else []) ++ [':', '/', '/']
    ++ (if www then ['w', 'w', 'w', '.'] else []) ++ lit ++ id ++ trailing

/-! ### Formatting helpers (`src/utils.py`) -/

/-- The characters removed by `re.sub(r'[<>:"/\\|?*]', '', filename)`. -/
def invalidFileChars : List Char :=
  ['<', '>', ':', '"', '/', '\\', '|', '?', '*']

/-- The ASCII whitespace class of `\s` (the inputs at issue are ASCII). -/
def pyIsSpace (c : Char) : Bool :=
  c = ' ' || c = '\t' || c = '\n' || c = '\r' || c = '\x0b' || c = '\x0c'

/-- The character set of `str.strip('. ')`. -/
def stripChars : List Char := ['.', ' ']

/-- Model of `str.strip(set)`: drop characters of `set` from both ends. -/
def pyStrip (set : List Char) (l : List Char) : List Char :=
  ((l.dropWhile (set.contains ·)).reverse.dropWhile (set.contains ·)).reverse

/-- Worker for `re.sub(r'\s+', '_', s)`: `inRun` records whether the
previous character belonged to the current whitespace run, so each maximal
run contributes exactly one `_`. -/
def collapseAux : Bool → List Char → List Char
  | _, [] => []
  | inRun, c :: cs =>
    if pyIsSpace c then
      (if inRun then [] else ['_']) ++ collapseAux true cs
    else c :: collapseAux false cs

/-- Model of `re.sub(r'\s+', '_', s)`: replace each maximal whitespace run by `_`. -/
def collapseWs (l : List Char) : List Char := collapseAux false l

/-- Model of `sanitize_filename`: remove invalid characters, strip leading/trailing
dots and spaces, collapse whitespace runs to `_`, truncate to 200. -/
def sanitize_filename (filename : String) : String :=
  let s1 := filename.data.filter fun c => !invalidFileChars.contains c
  let s2 := pyStrip stripChars s1
  let s3 := collapseWs s2
  String.mk (if s3.length > 200 then s3.take 200 else s3)

/-- Round to the nearest integer, ties to even — the rounding of CPython's
`format(x, '.1f')` on the exact value of `x` (for the dyadic rationals this
program formats, ties cannot occur, so the tie rule is immaterial). -/
def roundHalfEven (q : ℚ) : ℤ :=
  let f := ⌊q⌋
  if q - f < 1 / 2 then f
  else if 1 / 2 < q - f then f + 1
  else if f % 2 = 0 then f else f + 1

/-- Rendering of `f"{q:.1f}"` for the nonnegative values this program formats. -/
def fmt1 (q : ℚ) : String :=
  let t := roundHalfEven (q * 10)
  toString (t / 10) ++ "." ++ toString (t % 10)

/-- The `for unit in ['B', 'KB', 'MB', 'GB']` loop of `format_size`. -/
def sizeLoop : ℚ → List String → String
  | x, [] => fmt1 x ++ " TB"
  | x, u :: us => if x < 1024 then fmt1 x ++ " " ++ u else sizeLoop (x / 1024) us

/-- Model of `format_size`: `None → "Unknown"`, else scale by 1024 through the units. -/
def format_size : Option ℕ → String
  | none => "Unknown"
  | some n => sizeLoop (n : ℚ) ["B", "KB", "MB", "GB"]

/-- Python's `int(q)`: truncation toward zero. -/
def pyInt (q : ℚ) : ℤ := if q < 0 then ⌈q⌉ else ⌊q⌋

/-- Model of `print_progress_bar`, returning the string written to stdout
(`'█' * n` and `'░' * n` of Python are empty for negative `n`, which
`Int.toNat` reproduces). -/
def print_progress_bar (percent : ℚ) (downloaded speed eta : String)
    (width : ℤ) : String :=
  let filled : ℤ := pyInt ((width : ℚ) * percent / 100)
  let bar := List.replicate filled.toNat '█'
      ++ List.replicate (width - filled).toNat '░'
  let status_parts := (if downloaded ≠ "" then [downloaded] else [])
      ++ (if speed ≠ "" then [speed] else [])
      ++ (if eta ≠ "" then ["ETA: " ++ eta] else [])
  let status := String.intercalate " - " status_parts
  "\r[" ++ String.mk bar ++ "] " ++ fmt1 percent ++ "% " ++ status

/-! ### Download orchestrator (`src/downloader.py`)

`os.path.exists` is modelled by an oracle `fsExists : String → Bool`
(the state of the filesystem at the moment the options are built), and the
external `yt_dlp` service by explicit behaviour values.  `progress_hooks`
(a function value in the Python dict) is not a field of the options record;
the hook itself is modelled separately as `progress_hook`. -/

/-- The `FormatType` enumeration. -/
inductive FormatType
  | MP4
  | SOURCE
  | MP3
  | AAC
deriving DecidableEq

/-- The `value` attribute of `FormatType`. -/
def FormatType.value : FormatType → String
  | .MP4 => "mp4"
  | .SOURCE => "source"
  | .MP3 => "mp3"
  | .AAC => "aac"

/-- A Python value passed where a `FormatType` is expected: either a member
of the enumeration, or any other value carrying a `value` attribute and a
string form `tag` (Python is dynamically typed, and the spec requires the
mapper to fail closed on such values). -/
inductive FormatArg
  | known (ft : FormatType)
  | other (tag : String)
deriving DecidableEq

/-- The `.value` attribute access in `os.path.join(self.output_path,
format_type.value)`. -/
def FormatArg.value : FormatArg → String
  | .known ft => ft.value
  | .other tag => tag

/-- Python's `str(format_type)` as interpolated into the `ValueError` message. -/
def FormatArg.display : FormatArg → String
  | .known .MP4 => "FormatType.MP4"
  | .known .SOURCE => "FormatType.SOURCE"
  | .known .MP3 => "FormatType.MP3"
  | .known .AAC => "FormatType.AAC"
  | .other tag => tag

/-- The authentication entries of a yt-dlp options dict. -/
structure AuthOpts where
  cookiesfrombrowser : Option String
  cookiefile : Option String
deriving DecidableEq

/-- Python truthiness of an optional string (`None` and `""` are falsy). -/
def optTruthy : Option String → Bool
  | none => false
  | some s => !s.isEmpty

/-- Model of `YouTubeDownloader._get_auth_options`. -/
def _get_auth_options (browser cookies_file : Option String)
    (fsExists : String → Bool) : AuthOpts :=
  if optTruthy browser then
    { cookiesfrombrowser := browser, cookiefile := none }
  else if optTruthy cookies_file && fsExists (cookies_file.getD "") then
    { cookiesfrombrowser := none, cookiefile := cookies_file }
  else
    { cookiesfrombrowser := none, cookiefile := none }

/-- The metadata-fetch options dict built inside `get_video_info`. -/
structure InfoOpts where
  quiet : Bool
  no_warnings : Bool
  nocheckcertificate : Bool
  extractor_retries : ℕ
  sleep_interval : ℕ
  max_sleep_interval : ℕ
  sleep_interval_requests : ℕ
  cookiesfrombrowser : Option String
  cookiefile : Option String
deriving DecidableEq

/-- The `ydl_opts` dict of `get_video_info` (with `**_get_auth_options()`
merged in; the auth keys do not collide with the base keys). -/
def infoYdlOpts (browser cookies_file : Option String)
    (fsExists : String → Bool) : InfoOpts :=
  { quiet := true
    no_warnings := true
    nocheckcertificate := true
    extractor_retries := 5
    sleep_interval := 5
    max_sleep_interval := 30
    sleep_interval_requests := 1
    cookiesfrombrowser :=
      (_get_auth_options browser cookies_file fsExists).cookiesfrombrowser
    cookiefile := (_get_auth_options browser cookies_file fsExists).cookiefile }

/-- One entry of a `postprocessors` list (fields absent from a given
entry are `none`; `preferedformat` is spelled as in the source). -/
structure Postprocessor where
  key : String
  preferedformat : Option String
  preferredcodec : Option String
  preferredquality : Option String
deriving DecidableEq

/-- The download options dict built by `_get_ydl_options`. -/
structure YdlOpts where
  outtmpl : String
  quiet : Bool
  no_warnings : Bool
  nocheckcertificate : Bool
  extractor_retries : ℕ
  retries : ℕ
  fragment_retries : ℕ
  sleep_interval : ℕ
  max_sleep_interval : ℕ
  sleep_interval_requests : ℕ
  cookiesfrombrowser : Option String
  cookiefile : Option String
  format : String
  merge_output_format : Option String
  postprocessors : List Postprocessor
deriving DecidableEq

/-- POSIX `os.path.join`, two arguments. -/
def pathJoin (a b : String) : String :=
  if b.startsWith "/" then b
  else if a = "" || a.endsWith "/" then a ++ b
  else a ++ "/" ++ b

/-- A raised Python exception. -/
inductive PyError
  | valueError (msg : String)
deriving DecidableEq

/-- Model of `YouTubeDownloader._get_ydl_options`: the `base_opts` dict extended per
format, or the `ValueError` raised for a value outside the enumeration
(the `format` field is only ever observed on the `.ok` branches, where every
branch of the source sets a `'format'` key). -/
def _get_ydl_options (output_path : String) (browser cookies_file : Option String)
    (fsExists : String → Bool) (format_type : FormatArg) : Except PyError YdlOpts :=
  let format_folder := pathJoin output_path format_type.value
  let base : YdlOpts :=
    { outtmpl := format_folder ++ "/%(title)s.%(ext)s"
      quiet := true
      no_warnings := true
      nocheckcertificate := true
      extractor_retries := 5
      retries := 10
      fragment_retries := 10
      sleep_interval := 5
      max_sleep_interval := 30
      sleep_interval_requests := 1
      cookiesfrombrowser :=
        (_get_auth_options browser cookies_file fsExists).cookiesfrombrowser
      cookiefile := (_get_auth_options browser cookies_file fsExists).cookiefile
      format := ""
      merge_output_format := none
      postprocessors := [] }
  match format_type with
  | .known .MP4 =>
    .ok { base with
      format := "bestvideo[ext=mp4]+bestaudio[ext=m4a]/best[ext=mp4]/best"
      merge_output_format := some "mp4"
      postprocessors := [⟨"FFmpegVideoConvertor", some "mp4", none, none⟩] }
  | .known .SOURCE =>
    .ok { base with format := "bestvideo+bestaudio/best" }
  | .known .MP3 =>
    .ok { base with
      format := "bestaudio/best"
      postprocessors := [⟨"FFmpegExtractAudio", none, some "mp3", some "320"⟩] }
  | .known .AAC =>
    .ok { base with
      format := "bestaudio/best"
      postprocessors := [⟨"FFmpegExtractAudio", none, some "aac", some "256"⟩] }
  | .other tag =>
    .error (.valueError ("Unsupported format type: " ++ FormatArg.display (.other tag)))

/-- Behaviour of the external service's `ydl.download([url])` call:
it returns, raises `yt_dlp.utils.DownloadError`, or raises some other
`Exception`. -/
inductive ExtBehavior
  | success
  | downloadError (msg : String)
  | otherError (msg : String)
deriving DecidableEq

/-- Whether the external call completed without error. -/
def ExtBehavior.isSuccess : ExtBehavior → Bool
  | .success => true
  | _ => false

/-- What `download` prints for each external behaviour (`print` appends a
newline). -/
def downloadPrinted : ExtBehavior → String
  | .success => ""
  | .downloadError m => "\n✗ Download failed: " ++ m ++ "\n"
  | .otherError m => "\n✗ Unexpected error: " ++ m ++ "\n"

/-- Model of `YouTubeDownloader.download`: builds the options (outside the `try`
block, so an options-building exception propagates), then converts every
exception of the external call into a boolean plus a printed message. -/
def download (output_path : String) (browser cookies_file : Option String)
    (fsExists : String → Bool) (format_type : FormatArg) (beh : ExtBehavior) :
    Except PyError (Bool × String) :=
  match _get_ydl_options output_path browser cookies_file fsExists format_type with
  | .error e => .error e
  | .ok _ =>
    match beh with
    | .success => .ok (true, "")
    | .downloadError m => .ok (false, "\n✗ Download failed: " ++ m ++ "\n")
    | .otherError m => .ok (false, "\n✗ Unexpected error: " ++ m ++ "\n")

/-- The sanitized metadata dict, modelled as an association list
(`ydl.sanitize_info` returns a dict; an empty dict is falsy in Python). -/
abbrev VideoInfo := List (String × String)

/-- The per-request mutable state of a `YouTubeDownloader`: the
`_video_info` cache, plus a count of external metadata fetches performed
(to observe how often the service is contacted). -/
structure DLState where
  cache : Option VideoInfo
  fetches : ℕ
deriving DecidableEq

/-- Python truthiness of `self._video_info` (`None` and `{}` are falsy). -/
def infoTruthy : Option VideoInfo → Bool
  | none => false
  | some i => !i.isEmpty

/-- Model of `YouTubeDownloader.get_video_info`: return the cache if it is truthy;
otherwise fetch (`svc n` is the result of the `n`-th external fetch),
caching only a successful result. -/
def get_video_info (svc : ℕ → Except String VideoInfo) (s : DLState) :
    Option VideoInfo × DLState :=
  if infoTruthy s.cache then (s.cache, s)
  else
    match svc s.fetches with
    | .ok info => (some info, ⟨some info, s.fetches + 1⟩)
    | .error _ => (none, ⟨s.cache, s.fetches + 1⟩)

/-- A progress event dict as delivered to the hook created by
`_create_progress_hook` (absent keys are `none`). -/
structure ProgressEvent where
  status : String
  total_bytes : Option ℕ
  total_bytes_estimate : Option ℕ
  downloaded_bytes : Option ℕ
  speed_str : String
  eta_str : String

/-- The hook's `d.get('total_bytes') or d.get('total_bytes_estimate', 0)`
(`or` falls through on `None` and on `0`). -/
def hookTotal (e : ProgressEvent) : ℕ :=
  match e.total_bytes with
  | some n => if n ≠ 0 then n else e.total_bytes_estimate.getD 0
  | none => e.total_bytes_estimate.getD 0

/-- The hook's `d.get('downloaded_bytes', 0)`. -/
def hookDownloaded (e : ProgressEvent) : ℕ := e.downloaded_bytes.getD 0

/-- The computed percentage: `downloaded / total * 100` if `total > 0`,
else `0`. -/
def hookPercent (e : ProgressEvent) : ℚ :=
  if 0 < hookTotal e then (hookDownloaded e : ℚ) / (hookTotal e : ℚ) * 100
  else 0

/-- The `int(width * percent / 100)` of the bar, at the hook's call site
(width 32). -/
def hookFilled (e : ProgressEvent) : ℤ := pyInt (((32 : ℤ) : ℚ) * hookPercent e / 100)

/-- The progress hook of `_create_progress_hook`, returning what it writes
to stdout for one event. -/
def progress_hook (e : ProgressEvent) : String :=
  if e.status = "downloading" then
    print_progress_bar (hookPercent e) (format_size (some (hookDownloaded e)))
      e.speed_str e.eta_str 32
  else if e.status = "finished" then "\n✓ Download finished, processing...\n"
  else if e.status = "error" then "\n✗ Error occurred during download\n"
  else ""

/-! ### Theorems -/

/-- The stream-selection expression, merge container and post-processing
directives of an options-build result. -/
def formatDirectives (r : Except PyError YdlOpts) :
    Except PyError (String × Option String × List Postprocessor) :=
  r.map fun o => (o.format, o.merge_output_format, o.postprocessors)

/-- C1: for each of the four members of the closed `FormatType` enumeration,
`_get_ydl_options` returns a record whose stream-selection expression and
post-processing directives exactly match the mapping table (MP4: best mp4
video plus best m4a audio with fallbacks, container converted to mp4;
Source: best video plus best audio with best-overall fallback, no
post-processing; MP3: best audio, transcode to mp3 at quality 320; AAC:
best audio, transcode to aac at quality 256), and for any tag outside the
enumeration it fails closed with a typed `ValueError`. -/
theorem C1_format_mapping (o : String) (b c : Option String) (e : String → Bool) :
    formatDirectives (_get_ydl_options o b c e (.known .MP4))
        = .ok ("bestvideo[ext=mp4]+bestaudio[ext=m4a]/best[ext=mp4]/best", some "mp4",
            [⟨"FFmpegVideoConvertor", some "mp4", none, none⟩])
    ∧ formatDirectives (_get_ydl_options o b c e (.known .SOURCE))
        = .ok ("bestvideo+bestaudio/best", none, [])
    ∧ formatDirectives (_get_ydl_options o b c e (.known .MP3))
        = .ok ("bestaudio/best", none,
            [⟨"FFmpegExtractAudio", none, some "mp3", some "320"⟩])
    ∧ formatDirectives (_get_ydl_options o b c e (.known .AAC))
        = .ok ("bestaudio/best", none,
            [⟨"FFmpegExtractAudio", none, some "aac", some "256"⟩])
    ∧ ∀ tag, _get_ydl_options o b c e (.other tag)
        = .error (.valueError ("Unsupported format type: " ++ tag)) :=
  ⟨rfl, rfl, rfl, rfl, fun _ => rfl⟩

/-- C2 counterexample: `download` raises past its boundary for a
format-type argument outside the closed enumeration — the options are built
outside the `try` block, so the mapper's `ValueError` propagates instead of
being converted to a boolean result, even though the external service's
call itself would have succeeded. -/
theorem C2_counterexample :
    download "." none none (fun _ => false) (.other "webm") .success
      = .error (.valueError "Unsupported format type: webm") := rfl

/-- C2 amended: for every format type of the closed enumeration and every
behaviour of the external service, `download` never raises past its
boundary: every external failure is converted into `false` plus a printed
message, and it returns `true` exactly when the external call completes
without error. -/
theorem C2_download_boundary (o : String) (b c : Option String)
    (e : String → Bool) (ft : FormatType) (beh : ExtBehavior) :
    download o b c e (.known ft) beh = .ok (beh.isSuccess, downloadPrinted beh) := by
  cases ft <;> cases beh <;> rfl

/-- C5 counterexample: when the external service's sanitized metadata is the
empty dict, `get_video_info` succeeds (returns the dict) yet a second call
re-contacts the service — the cache guard tests Python truthiness, and an
empty dict is falsy — and can return a different value. -/
theorem C5_counterexample :
    get_video_info (fun n => if n = 0 then .ok [] else .ok [("title", "x")])
        ⟨none, 0⟩ = (some [], ⟨some [], 1⟩)
    ∧ get_video_info (fun n => if n = 0 then .ok [] else .ok [("title", "x")])
        ⟨some [], 1⟩ = (some [("title", "x")], ⟨some [("title", "x")], 2⟩) :=
  ⟨rfl, rfl⟩

/-- C5 amended: once `get_video_info` succeeds with a non-empty (truthy)
metadata value, every subsequent call returns that identical cached value
with no further external fetch (at most one fetch across the two calls);
and a failed fetch is not cached — the cache is left unchanged, the failure
came from the service, and a later call contacts the service again. -/
theorem C5_metadata_cache (svc : ℕ → Except String VideoInfo) (s : DLState) :
    (∀ info s₁, get_video_info svc s = (some info, s₁) → info ≠ [] →
      get_video_info svc s₁ = (some info, s₁) ∧ s₁.fetches ≤ s.fetches + 1)
    ∧ (∀ s₁, get_video_info svc s = (none, s₁) →
      s₁.cache = s.cache ∧ s₁.fetches = s.fetches + 1
        ∧ (∃ m, svc s.fetches = .error m)
        ∧ (get_video_info svc s₁).2.fetches = s₁.fetches + 1) := by
  constructor
  · intro info s₁ hcall hne
    unfold get_video_info at hcall ⊢
    by_cases hc : infoTruthy s.cache
    · rw [if_pos hc] at hcall
      obtain ⟨h1, h2⟩ := Prod.mk.injEq .. ▸ hcall
      subst h2
      rw [if_pos hc, h1]
      exact ⟨rfl, Nat.le_succ _⟩
    · rw [if_neg hc] at hcall
      cases hsvc : svc s.fetches with
      | ok i =>
        rw [hsvc] at hcall
        obtain ⟨h1, h2⟩ := Prod.mk.injEq .. ▸ hcall
        cases h1
        subst h2
        have ht : infoTruthy (some info) = true := by
          simp [infoTruthy, hne]
        rw [if_pos ht]
        exact ⟨rfl, Nat.le_refl _⟩
      | error m =>
        rw [hsvc] at hcall
        exact absurd (congrArg Prod.fst hcall) (by simp)
  · intro s₁ hcall
    unfold get_video_info at hcall ⊢
    by_cases hc : infoTruthy s.cache
    · rw [if_pos hc] at hcall
      have : s.cache = none := congrArg Prod.fst hcall
      rw [this] at hc
      exact absurd hc (by simp [infoTruthy])
    · rw [if_neg hc] at hcall
      cases hsvc : svc s.fetches with
      | ok i =>
        rw [hsvc] at hcall
        exact absurd (congrArg Prod.fst hcall) (by simp)
      | error m =>
        rw [hsvc] at hcall
        obtain ⟨h1, h2⟩ := Prod.mk.injEq .. ▸ hcall
        subst h2
        refine ⟨rfl, rfl, ⟨m, hsvc ▸ rfl⟩, ?_⟩
        rw [if_neg hc]
        cases svc (s.fetches + 1) <;> rfl

/-- Witness for C5: concrete cache hit after a successful non-empty fetch. -/
theorem C5_metadata_cache_witness :
    get_video_info (fun _ => .ok [("title", "t")])
        ⟨some [("title", "t")], 1⟩
      = (some [("title", "t")], ⟨some [("title", "t")], 1⟩) :=
  ((C5_metadata_cache (fun _ => .ok [("title", "t")]) ⟨none, 0⟩).1
    [("title", "t")] ⟨some [("title", "t")], 1⟩ rfl (by decide)).1

/-- C6: the authentication options are merged into both the metadata-fetch
options and the download options verbatim, and when both a browser and a
cookie file are supplied the browser-cookie source takes precedence and the
cookie file is ignored. -/
theorem C6_auth_merged (b c : Option String) (e : String → Bool) (o : String)
    (ft : FormatType) :
    ((infoYdlOpts b c e).cookiesfrombrowser, (infoYdlOpts b c e).cookiefile)
        = ((_get_auth_options b c e).cookiesfrombrowser,
           (_get_auth_options b c e).cookiefile)
    ∧ (_get_ydl_options o b c e (.known ft)).map
          (fun r => (r.cookiesfrombrowser, r.cookiefile))
        = .ok ((_get_auth_options b c e).cookiesfrombrowser,
               (_get_auth_options b c e).cookiefile)
    ∧ ∀ bs cs : String, _get_auth_options (some bs) (some cs) e
        = if bs.isEmpty then
            (if (!cs.isEmpty) && e cs then ⟨none, some cs⟩ else ⟨none, none⟩)
          else ⟨some bs, none⟩ := by
  refine ⟨rfl, by cases ft <;> rfl, ?_⟩
  intro bs cs
  by_cases h : bs.isEmpty <;> simp [_get_auth_options, optTruthy, h]

/-- C10: with no browser identifier held, the cookie file is passed through
exactly when the held path is non-empty and names an existing file at the
moment the options are built; otherwise the authentication options are
empty and no error is raised. -/
theorem C10_cookie_existence (p : String) (e : String → Bool) :
    _get_auth_options none (some p) e
      = if (!p.isEmpty) && e p then ⟨none, some p⟩ else ⟨none, none⟩ := rfl

/-- List lemma: `findSome?` finds a value exactly when `any` finds a productive element. -/
theorem findSome?_isSome_eq_any {α β : Type} (f : α → Option β) (l : List α) :
    (l.findSome? f).isSome = l.any fun a => (f a).isSome := by
  induction l with
  | nil => rfl
  | cons a t ih =>
    rw [List.findSome?_cons, List.any_cons]
    cases f a <;> simp [ih]

/-- C3: for every string (including the empty string), `validate` returns
true if and only if `extract_video_id` returns a value — both walk the same
pattern list, so a string matching none of the six shapes yields
false/absent and one matching some shape yields true/present. -/
theorem C3_validate_iff_extract (url : String) :
    validate url = (extract_video_id url).isSome := by
  unfold validate extract_video_id
  cases url.data with
  | nil => rfl
  | cons c cs => simp [findSome?_isSome_eq_any]

/-- The unit index of the spec's §4.2 description of `format_size`: the
value is divided by 1024 until it is below 1024, choosing the unit among
B, KB, MB, GB, TB, and stays at TB rather than introducing further units.
Modelled from the spec for comparison with the source's `format_size`. -/
def spec_size_unit (n : ℕ) : ℕ :=
  if n < 1024 then 0
  else if n < 1024 ^ 2 then 1
  else if n < 1024 ^ 3 then 2
  else if n < 1024 ^ 4 then 3
  else 4

/-- The unit names of the spec's table, by index. -/
def spec_unit_name : ℕ → String
  | 0 => "B"
  | 1 => "KB"
  | 2 => "MB"
  | 3 => "GB"
  | _ => "TB"

/-- Associativity of string concatenation. -/
theorem str_append_assoc (a b c : String) : a ++ b ++ c = a ++ (b ++ c) := by
  apply String.ext
  simp [String.data_append]

/-- Rounding is the identity on integers. -/
theorem roundHalfEven_int (m : ℤ) : roundHalfEven (m : ℚ) = m := by
  simp [roundHalfEven]

/-- Evaluation rule for `fmt1` when ten times the argument is the integer
`m` (the only case this program exercises). -/
theorem fmt1_int (m : ℤ) (q : ℚ) (h : q * 10 = (m : ℚ)) :
    fmt1 q = toString (m / 10) ++ "." ++ toString (m % 10) := by
  rw [fmt1, h, roundHalfEven_int]

/-- C7: `format_size` maps an absent byte count to `"Unknown"`; otherwise it
renders the input scaled by `1024 ^ k` with one decimal place and the unit
of index `k` among B, KB, MB, GB, TB, where `k` is chosen by repeated
division by 1024 and never exceeds the TB index; in particular
`format_size 500 = "500.0 B"`, `format_size 1536 = "1.5 KB"` and
`format_size (1024 * 1024 * 2) = "2.0 MB"`. -/
theorem C7_format_size :
    format_size none = "Unknown"
    ∧ format_size (some 500) = "500.0 B"
    ∧ format_size (some 1536) = "1.5 KB"
    ∧ format_size (some (1024 * 1024 * 2)) = "2.0 MB"
    ∧ ∀ n : ℕ, format_size (some n)
        = fmt1 ((n : ℚ) / 1024 ^ spec_size_unit n)
            ++ " " ++ spec_unit_name (spec_size_unit n) := by
  have h1024 : (0 : ℚ) < 1024 := by norm_num
  refine ⟨rfl, ?_, ?_, ?_, ?_⟩
  · simp only [format_size, sizeLoop]
    rw [if_pos (by norm_num), fmt1_int 5000 _ (by norm_num)]
    rfl
  · simp only [format_size, sizeLoop]
    rw [if_neg (by norm_num), if_pos (by norm_num), fmt1_int 15 _ (by norm_num)]
    rfl
  · simp only [format_size, sizeLoop]
    rw [if_neg (by norm_num), if_neg (by norm_num), if_pos (by norm_num),
      fmt1_int 20 _ (by norm_num)]
    rfl
  · intro n
    simp only [format_size, sizeLoop]
    rcases lt_or_le n 1024 with h1 | h1
    · have hu : spec_size_unit n = 0 := by simp [spec_size_unit, h1]
      rw [if_pos (by exact_mod_cast h1), hu]
      norm_num [spec_unit_name]
    · have hq1 : ¬ (n : ℚ) < 1024 := not_lt.mpr (by exact_mod_cast h1)
      rcases lt_or_le n (1024 ^ 2) with h2 | h2
      · have hu : spec_size_unit n = 1 := by
          unfold spec_size_unit
          rw [if_neg (not_lt.mpr h1), if_pos h2]
        have hq2 : (n : ℚ) / 1024 < 1024 := by
          rw [div_lt_iff₀ h1024]
          calc (n : ℚ) < ((1024 ^ 2 : ℕ) : ℚ) := by exact_mod_cast h2
          _ = 1024 * 1024 := by push_cast; norm_num
        rw [if_neg hq1, if_pos hq2, hu]
        norm_num [spec_unit_name]
      · have hq2 : ¬ (n : ℚ) / 1024 < 1024 := by
          rw [not_lt, le_div_iff₀ h1024]
          calc (1024 : ℚ) * 1024 = ((1024 ^ 2 : ℕ) : ℚ) := by push_cast; norm_num
          _ ≤ (n : ℚ) := by exact_mod_cast h2
        rcases lt_or_le n (1024 ^ 3) with h3 | h3
        · have hu : spec_size_unit n = 2 := by
            unfold spec_size_unit
            rw [if_neg (not_lt.mpr h1), if_neg (not_lt.mpr h2), if_pos h3]
          have hq3 : (n : ℚ) / 1024 / 1024 < 1024 := by
            rw [div_lt_iff₀ h1024, div_lt_iff₀ h1024]
            calc (n : ℚ) < ((1024 ^ 3 : ℕ) : ℚ) := by exact_mod_cast h3
            _ = 1024 * 1024 * 1024 := by push_cast; norm_num
          have hdiv : (n : ℚ) / 1024 / 1024 = (n : ℚ) / 1024 ^ 2 := by
            rw [div_div]
            norm_num
          rw [if_neg hq1, if_neg hq2, if_pos hq3, hu, hdiv]
          norm_num [spec_unit_name]
        · have hq3 : ¬ (n : ℚ) / 1024 / 1024 < 1024 := by
            rw [not_lt, le_div_iff₀ h1024, le_div_iff₀ h1024]
            calc (1024 : ℚ) * 1024 * 1024 = ((1024 ^ 3 : ℕ) : ℚ) := by push_cast; norm_num
            _ ≤ (n : ℚ) := by exact_mod_cast h3
          rcases lt_or_le n (1024 ^ 4) with h4 | h4
          · have hu : spec_size_unit n = 3 := by
              unfold spec_size_unit
              rw [if_neg (not_lt.mpr h1), if_neg (not_lt.mpr h2),
                if_neg (not_lt.mpr h3), if_pos h4]
            have hq4 : (n : ℚ) / 1024 / 1024 / 1024 < 1024 := by
              rw [div_lt_iff₀ h1024, div_lt_iff₀ h1024, div_lt_iff₀ h1024]
              calc (n : ℚ) < ((1024 ^ 4 : ℕ) : ℚ) := by exact_mod_cast h4
              _ = 1024 * 1024 * 1024 * 1024 := by push_cast; norm_num
            have hdiv : (n : ℚ) / 1024 / 1024 / 1024 = (n : ℚ) / 1024 ^ 3 := by
              rw [div_div, div_div]
              norm_num
            rw [if_neg hq1, if_neg hq2, if_neg hq3, if_pos hq4, hu, hdiv]
            norm_num [spec_unit_name]
          · have hu : spec_size_unit n = 4 := by
              unfold spec_size_unit
              rw [if_neg (not_lt.mpr h1), if_neg (not_lt.mpr h2),
                if_neg (not_lt.mpr h3), if_neg (not_lt.mpr h4)]
            have hq4 : ¬ (n : ℚ) / 1024 / 1024 / 1024 < 1024 := by
              rw [not_lt, le_div_iff₀ h1024, le_div_iff₀ h1024, le_div_iff₀ h1024]
              have hc : (1024 : ℚ) * 1024 * 1024 * 1024 = ((1024 ^ 4 : ℕ) : ℚ) := by
                push_cast
                norm_num
              rw [hc]
              exact_mod_cast h4
            have hdiv : (n : ℚ) / 1024 / 1024 / 1024 / 1024 = (n : ℚ) / 1024 ^ 4 := by
              rw [div_div, div_div, div_div]
              norm_num
            rw [if_neg hq1, if_neg hq2, if_neg hq3, if_neg hq4, hu, hdiv]
            norm_num [spec_unit_name]
            rw [str_append_assoc]
            rfl

/-- The head of `dropWhile p`, when present, does not satisfy `p`. -/
theorem head?_dropWhile_not (p : Char → Bool) (l : List Char) :
    ∀ c, (l.dropWhile p).head? = some c → p c = false := by
  induction l with
  | nil =>
    intro c h
    cases h
  | cons a t ih =>
    intro c h
    rw [List.dropWhile_cons] at h
    by_cases hp : p a
    · rw [if_pos hp] at h
      exact ih c h
    · rw [if_neg hp] at h
      injection h with h
      subst h
      exact Bool.eq_false_iff.mpr hp

/-- A nonempty suffix determines the last element. -/
theorem getLast?_of_suffix {l₁ l₂ : List Char} (h : l₁ <:+ l₂) (hne : l₁ ≠ []) :
    l₂.getLast? = l₁.getLast? := by
  obtain ⟨t, rfl⟩ := h
  rw [List.getLast?_append]
  cases hl : l₁.getLast? with
  | none => exact absurd (List.getLast?_eq_none_iff.mp hl) hne
  | some a => rfl

/-- Stripping only keeps characters of its input. -/
theorem pyStrip_subset (set l : List Char) :
    ∀ c ∈ pyStrip set l, c ∈ l := by
  intro c hc
  unfold pyStrip at hc
  rw [List.mem_reverse] at hc
  have h1 := (List.dropWhile_suffix _).sublist.subset hc
  rw [List.mem_reverse] at h1
  exact (List.dropWhile_suffix _).sublist.subset h1

/-- The first character surviving `pyStrip` is outside the strip set. -/
theorem pyStrip_head (set l : List Char) :
    ∀ c, (pyStrip set l).head? = some c → set.contains c = false := by
  intro c hc
  unfold pyStrip at hc
  rw [List.head?_reverse] at hc
  by_cases hne :
      (l.dropWhile (set.contains ·)).reverse.dropWhile (set.contains ·) = []
  · rw [hne] at hc
    cases hc
  · have hsuf := getLast?_of_suffix (List.dropWhile_suffix (set.contains ·)) hne
    rw [hc] at hsuf
    rw [List.getLast?_reverse] at hsuf
    exact head?_dropWhile_not _ _ c hsuf

/-- The last character surviving `pyStrip` is outside the strip set. -/
theorem pyStrip_getLast (set l : List Char) :
    ∀ c, (pyStrip set l).getLast? = some c → set.contains c = false := by
  intro c hc
  unfold pyStrip at hc
  rw [List.getLast?_reverse] at hc
  exact head?_dropWhile_not _ _ c hc

/-- Characters of `collapseAux` output: an underscore, or a non-whitespace
character of the input. -/
theorem collapseAux_mem (c : Char) :
    ∀ (b : Bool) (l : List Char), c ∈ collapseAux b l →
      c = '_' ∨ (c ∈ l ∧ pyIsSpace c = false) := by
  intro b l
  induction l generalizing b with
  | nil =>
    intro h
    cases h
  | cons d cs ih =>
    intro h
    simp only [collapseAux] at h
    by_cases hd : pyIsSpace d
    · rw [if_pos hd] at h
      rcases List.mem_append.mp h with h1 | h1
      · left
        cases b with
        | true => cases h1
        | false => simpa using h1
      · rcases ih true h1 with h2 | ⟨h2, h3⟩
        · exact Or.inl h2
        · exact Or.inr ⟨List.mem_cons_of_mem _ h2, h3⟩
    · rw [if_neg hd] at h
      rcases List.mem_cons.mp h with h1 | h1
      · subst h1
        exact Or.inr ⟨List.mem_cons_self _ _, Bool.eq_false_iff.mpr hd⟩
      · rcases ih false h1 with h2 | ⟨h2, h3⟩
        · exact Or.inl h2
        · exact Or.inr ⟨List.mem_cons_of_mem _ h2, h3⟩

/-- Collapsing maps nonempty input to nonempty output. -/
theorem collapseWs_eq_nil (l : List Char) : collapseWs l = [] ↔ l = [] := by
  cases l with
  | nil => simp [collapseWs, collapseAux]
  | cons d cs =>
    simp only [collapseWs, collapseAux]
    by_cases hd : pyIsSpace d <;> simp [hd]

/-- Head of `collapseWs`: the input's head, an initial whitespace character
becoming an underscore. -/
theorem collapseWs_head (l : List Char) :
    (collapseWs l).head? = l.head?.map fun c => if pyIsSpace c then '_' else c := by
  cases l with
  | nil => rfl
  | cons d cs =>
    simp only [collapseWs, collapseAux]
    by_cases hd : pyIsSpace d <;> simp [hd]

/-- Last element of `collapseAux` output: an underscore, or the input's
non-whitespace last character. -/
theorem collapseAux_getLast (c : Char) :
    ∀ (b : Bool) (l : List Char), (collapseAux b l).getLast? = some c →
      c = '_' ∨ (pyIsSpace c = false ∧ l.getLast? = some c) := by
  intro b l
  induction l generalizing b with
  | nil =>
    intro h
    cases h
  | cons d cs ih =>
    intro h
    simp only [collapseAux] at h
    by_cases hd : pyIsSpace d
    · rw [if_pos hd] at h
      by_cases hcs : collapseAux true cs = []
      · rw [hcs, List.append_nil] at h
        cases b with
        | true => cases h
        | false =>
          left
          have : some '_' = some c := by simpa using h
          injection this with h2
          exact h2.symm
      · rw [getLast?_of_suffix ⟨_, rfl⟩ hcs] at h
        rcases ih true h with h2 | ⟨h2, h3⟩
        · exact Or.inl h2
        · refine Or.inr ⟨h2, ?_⟩
          have hcsne : cs ≠ [] := by
            intro hnil
            subst hnil
            cases h3
          rw [getLast?_of_suffix (⟨[d], rfl⟩ : cs <:+ d :: cs) hcsne]
          exact h3
    · rw [if_neg hd] at h
      by_cases hcs : collapseAux false cs = []
      · rw [hcs] at h
        have : some d = some c := by simpa using h
        injection this with h2
        subst h2
        refine Or.inr ⟨Bool.eq_false_iff.mpr hd, ?_⟩
        have hnil : cs = [] := (collapseWs_eq_nil cs).mp hcs
        subst hnil
        rfl
      · rw [getLast?_of_suffix
            (⟨[d], rfl⟩ : collapseAux false cs <:+ d :: collapseAux false cs) hcs] at h
        rcases ih false h with h2 | ⟨h2, h3⟩
        · exact Or.inl h2
        · refine Or.inr ⟨h2, ?_⟩
          have hcsne : cs ≠ [] := by
            intro hnil
            subst hnil
            cases h3
          rw [getLast?_of_suffix (⟨[d], rfl⟩ : cs <:+ d :: cs) hcsne]
          exact h3

/-- The amended C9 property, as a decidable check on one input: no invalid
character, no whitespace, no leading dot or space, length at most 200, no
trailing space, and no trailing dot unless the 200-character truncation cut
the name. -/
def c9Check (s : String) : Bool :=
  ((sanitize_filename s).data.all fun c => !invalidFileChars.contains c)
  && ((sanitize_filename s).data.all fun c => !pyIsSpace c)
  && decide ((sanitize_filename s).data.head? ≠ some '.')
  && decide ((sanitize_filename s).data.head? ≠ some ' ')
  && decide ((sanitize_filename s).data.length ≤ 200)
  && decide ((sanitize_filename s).data.getLast? ≠ some ' ')
  && (decide (¬ (collapseWs (pyStrip stripChars
        (s.data.filter fun c => !invalidFileChars.contains c))).length ≤ 200)
      || decide ((sanitize_filename s).data.getLast? ≠ some '.'))

set_option maxRecDepth 8192 in
/-- C9 counterexample: a 201-character name whose 200th character is a dot
is truncated to 200 characters ending in that dot — the `strip('. ')` runs
before the `[:200]` truncation, so the result can end with a dot. -/
theorem C9_counterexample :
    (sanitize_filename (String.mk (List.replicate 199 'a' ++ ['.', 'b']))).data.getLast?
        = some '.'
    ∧ (sanitize_filename (String.mk (List.replicate 199 'a' ++ ['.', 'b']))).length
        = 200 := by
  constructor
  · decide
  · decide

/-- C9 amended: for every input, `sanitize_filename` returns a string with
none of the characters `< > : " / \ | ? *`, no whitespace (whitespace runs
became single underscores), no leading dot or space, no trailing space, and
length at most 200; it does not end with a dot provided the sanitized text
did not exceed 200 characters — the truncation to 200 may expose a dot. -/
theorem C9_sanitize (s : String) : c9Check s = true := by
  have hout : (sanitize_filename s).data
      = if (collapseWs (pyStrip stripChars
            (s.data.filter fun c => !invalidFileChars.contains c))).length > 200
        then (collapseWs (pyStrip stripChars
            (s.data.filter fun c => !invalidFileChars.contains c))).take 200
        else collapseWs (pyStrip stripChars
            (s.data.filter fun c => !invalidFileChars.contains c)) := rfl
  set l1 := s.data.filter fun c => !invalidFileChars.contains c with hl1
  set pre := collapseWs (pyStrip stripChars l1) with hpre
  have hmem : ∀ c ∈ pre, invalidFileChars.contains c = false ∧ pyIsSpace c = false := by
    intro c hc
    rcases collapseAux_mem c false (pyStrip stripChars l1) hc with h | ⟨h2, h3⟩
    · subst h
      exact ⟨by decide, by decide⟩
    · have hc1 : c ∈ l1 := pyStrip_subset _ _ c h2
      have h4 := (List.mem_filter.mp hc1).2
      refine ⟨?_, h3⟩
      cases hcontains : invalidFileChars.contains c
      · rfl
      · rw [hcontains] at h4
        cases h4
  have houtsub : ∀ c ∈ (sanitize_filename s).data, c ∈ pre := by
    rw [hout]
    by_cases h : pre.length > 200
    · rw [if_pos h]
      exact fun c hc => List.take_subset _ _ hc
    · rw [if_neg h]
      exact fun c hc => hc
  have hhead : (sanitize_filename s).data.head? = pre.head? := by
    rw [hout]
    by_cases h : pre.length > 200
    · rw [if_pos h]
      cases pre with
      | nil => rfl
      | cons a t => rfl
    · rw [if_neg h]
  have hheadPre : ∀ c, pre.head? = some c → c ≠ '.' ∧ c ≠ ' ' := by
    intro c hc
    rw [hpre, collapseWs_head] at hc
    cases hl : (pyStrip stripChars l1).head? with
    | none =>
      rw [hl] at hc
      cases hc
    | some c0 =>
      rw [hl] at hc
      have hc0 := pyStrip_head stripChars l1 c0 hl
      by_cases hsp : pyIsSpace c0
      · have : some '_' = some c := by simpa [hsp] using hc
        injection this with h2
        subst h2
        exact ⟨by decide, by decide⟩
      · have : some c0 = some c := by simpa [hsp] using hc
        injection this with h2
        subst h2
        constructor <;> intro hh <;> subst hh <;> simp [stripChars] at hc0
  have hlastPre : ∀ c, pre.getLast? = some c → c ≠ '.' := by
    intro c hc
    rcases collapseAux_getLast c false (pyStrip stripChars l1) hc with h | ⟨_, h2⟩
    · subst h
      decide
    · have h3 := pyStrip_getLast stripChars l1 c h2
      intro hh
      subst hh
      simp [stripChars] at h3
  have hmemOfLast : ∀ c, (sanitize_filename s).data.getLast? = some c →
      c ∈ (sanitize_filename s).data := by
    intro c hc
    rcases List.mem_getLast?_eq_getLast (Option.mem_def.mpr hc) with ⟨hne, hgl⟩
    rw [hgl]
    exact List.getLast_mem hne
  unfold c9Check
  simp only [Bool.and_eq_true, Bool.or_eq_true, decide_eq_true_eq, List.all_eq_true]
  refine ⟨⟨⟨⟨⟨⟨?_, ?_⟩, ?_⟩, ?_⟩, ?_⟩, ?_⟩, ?_⟩
  · intro c hc
    rw [(hmem c (houtsub c hc)).1]
    rfl
  · intro c hc
    rw [(hmem c (houtsub c hc)).2]
    rfl
  · rw [hhead]
    cases hl : pre.head? with
    | none => simp
    | some c =>
      have := (hheadPre c hl).1
      simp [this]
  · rw [hhead]
    cases hl : pre.head? with
    | none => simp
    | some c =>
      have := (hheadPre c hl).2
      simp [this]
  · rw [hout]
    by_cases h : pre.length > 200
    · rw [if_pos h, List.length_take]
      exact min_le_left _ _
    · rw [if_neg h]
      omega
  · cases hl : (sanitize_filename s).data.getLast? with
    | none => simp
    | some c =>
      have hcm := hmemOfLast c hl
      have := (hmem c (houtsub c hcm)).2
      simp only [ne_eq, Option.some.injEq]
      intro hh
      subst hh
      simp [pyIsSpace] at this
  · by_cases hpl : pre.length ≤ 200
    · right
      have houtpre : (sanitize_filename s).data = pre := by
        rw [hout, if_neg (by omega)]
      rw [houtpre]
      cases hl : pre.getLast? with
      | none => simp
      | some c =>
        have := hlastPre c hl
        simp [this]
    · exact Or.inl hpl

/-- C8 counterexample: a downloading event whose byte count exceeds the
(estimated) total yields a percentage above 100 and a bar of 64 cells, not
the fixed 32 — `'█' * filled` grows past the width and `'░' * (width -
filled)` is empty. -/
theorem C8_counterexample :
    ((progress_hook ⟨"downloading", some 100, none, some 200, "", ""⟩).data.filter
        fun c => c = '█' || c = '░').length = 64 := by
  have hp : hookPercent ⟨"downloading", some 100, none, some 200, "", ""⟩ = 200 := by
    norm_num [hookPercent, hookTotal, hookDownloaded]
  have hfs : format_size (some 200) = "200.0 B" := by
    simp only [format_size, sizeLoop]
    rw [if_pos (by norm_num), fmt1_int 2000 _ (by norm_num)]
    rfl
  have h1 : progress_hook ⟨"downloading", some 100, none, some 200, "", ""⟩
      = print_progress_bar 200 "200.0 B" "" "" 32 := by
    unfold progress_hook
    rw [if_pos rfl, hp, show hookDownloaded ⟨"downloading", some 100, none,
      some 200, "", ""⟩ = 200 from rfl, hfs]
  rw [h1]
  simp only [print_progress_bar]
  rw [show pyInt (((32 : ℤ) : ℚ) * 200 / 100) = 64 from by norm_num [pyInt],
    fmt1_int 2000 200 (by norm_num)]
  rfl

/-- C8 amended: for every progress event with status `downloading`, the
rendered line is a carriage return, the block bar, the percentage to one
decimal place, and the dash-joined non-empty labels among downloaded, speed
and `ETA: <eta>`; the percentage is `downloaded / total * 100` when the
total (or its estimate) is known and positive, else 0, and is never
negative; and whenever `downloaded ≤ total` the bar has exactly the fixed
width of 32 cells (`filled = ⌊32 * percent / 100⌋` blocks, the rest
unfilled).  When `downloaded > total` the percentage exceeds 100 and the
bar grows beyond 32 cells (see the counterexample). -/
theorem C8_progress_line (e : ProgressEvent) (hs : e.status = "downloading") :
    progress_hook e
      = "\r[" ++ String.mk (List.replicate (hookFilled e).toNat '█'
          ++ List.replicate ((32 - hookFilled e : ℤ)).toNat '░') ++ "] "
        ++ fmt1 (hookPercent e) ++ "% "
        ++ String.intercalate " - "
          ((if format_size (some (hookDownloaded e)) ≠ "" then
              [format_size (some (hookDownloaded e))] else [])
            ++ (if e.speed_str ≠ "" then [e.speed_str] else [])
            ++ (if e.eta_str ≠ "" then ["ETA: " ++ e.eta_str] else []))
    ∧ (0 : ℚ) ≤ hookPercent e
    ∧ (hookDownloaded e ≤ hookTotal e →
        (List.replicate (hookFilled e).toNat '█'
          ++ List.replicate ((32 - hookFilled e : ℤ)).toNat '░').length = 32) := by
  have hp0 : (0 : ℚ) ≤ hookPercent e := by
    unfold hookPercent
    by_cases h : 0 < hookTotal e
    · rw [if_pos h]
      positivity
    · rw [if_neg h]
  refine ⟨?_, hp0, ?_⟩
  · unfold progress_hook
    rw [if_pos hs]
    rfl
  · intro hd
    have hp100 : hookPercent e ≤ 100 := by
      unfold hookPercent
      by_cases h : 0 < hookTotal e
      · rw [if_pos h]
        have ht : (0 : ℚ) < (hookTotal e : ℚ) := by exact_mod_cast h
        have hdq : (hookDownloaded e : ℚ) ≤ (hookTotal e : ℚ) := by exact_mod_cast hd
        have : (hookDownloaded e : ℚ) / (hookTotal e : ℚ) ≤ 1 :=
          (div_le_one ht).mpr hdq
        calc (hookDownloaded e : ℚ) / (hookTotal e : ℚ) * 100 ≤ 1 * 100 := by
              exact mul_le_mul_of_nonneg_right this (by norm_num)
        _ = 100 := by norm_num
      · rw [if_neg h]
        norm_num
    have hx0 : (0 : ℚ) ≤ ((32 : ℤ) : ℚ) * hookPercent e / 100 := by positivity
    have hx32 : ((32 : ℤ) : ℚ) * hookPercent e / 100 ≤ 32 := by
      rw [div_le_iff₀ (by norm_num : (0 : ℚ) < 100)]
      calc ((32 : ℤ) : ℚ) * hookPercent e ≤ ((32 : ℤ) : ℚ) * 100 :=
            mul_le_mul_of_nonneg_left hp100 (by norm_num)
      _ = 32 * 100 := by norm_num
    have hf0 : 0 ≤ hookFilled e := by
      unfold hookFilled pyInt
      rw [if_neg (not_lt.mpr hx0)]
      exact Int.le_floor.mpr (by exact_mod_cast hx0)
    have hf32 : hookFilled e ≤ 32 := by
      unfold hookFilled pyInt
      rw [if_neg (not_lt.mpr hx0)]
      have := le_trans (Int.floor_le (((32 : ℤ) : ℚ) * hookPercent e / 100)) hx32
      exact_mod_cast this
    rw [List.length_append, List.length_replicate, List.length_replicate]
    omega

/-- Witness for C8: a concrete half-done event renders the expected line. -/
theorem C8_progress_line_witness :
    progress_hook ⟨"downloading", some 1000, none, some 500, "2.0 MB/s", "00:05"⟩
      = "\r[████████████████░░░░░░░░░░░░░░░░] 50.0% 500.0 B - 2.0 MB/s - ETA: 00:05" := by
  have h := C8_progress_line
    ⟨"downloading", some 1000, none, some 500, "2.0 MB/s", "00:05"⟩ rfl
  rw [h.1]
  have hp : hookPercent ⟨"downloading", some 1000, none, some 500, "2.0 MB/s",
      "00:05"⟩ = 50 := by
    norm_num [hookPercent, hookTotal, hookDownloaded]
  have hf : hookFilled ⟨"downloading", some 1000, none, some 500, "2.0 MB/s",
      "00:05"⟩ = 16 := by
    rw [hookFilled, hp]
    norm_num [pyInt]
  have hfs : format_size (some 500) = "500.0 B" := by
    simp only [format_size, sizeLoop]
    rw [if_pos (by norm_num), fmt1_int 5000 _ (by norm_num)]
    rfl
  rw [hf, hp, fmt1_int 500 50 (by norm_num),
    show hookDownloaded ⟨"downloading", some 1000, none, some 500, "2.0 MB/s",
      "00:05"⟩ = 500 from rfl, hfs]
  rfl

/-- Unfolding rule: `(String.mk l).data = l`. -/
theorem mk_data (l : List Char) : (String.mk l).data = l := rfl

/-- Lemma: `takeId n` captures exactly the first `n` class characters, whatever
follows them. -/
theorem takeId_of_all : ∀ (n : ℕ) (id rest : List Char), id.length = n →
    id.all isIdChar = true → takeId n (id ++ rest) = some id := by
  intro n id
  induction id generalizing n with
  | nil =>
    intro rest hlen _
    subst hlen
    rfl
  | cons c t ih =>
    intro rest hlen hall
    subst hlen
    rw [List.all_cons, Bool.and_eq_true] at hall
    obtain ⟨hc, ht⟩ := hall
    simp only [List.length_cons, List.cons_append, takeId, List.append_eq]
    rw [if_pos hc, ih t.length rest rfl ht]
    rfl

/-- Lemma: `takeId n` fails when fewer than `n` class characters are available
before the end of the string or a non-class character. -/
theorem takeId_short : ∀ (n : ℕ) (id suffix : List Char), id.length < n →
    id.all isIdChar = true →
    (∀ c, suffix.head? = some c → isIdChar c = false) →
    takeId n (id ++ suffix) = none := by
  intro n id
  induction id generalizing n with
  | nil =>
    intro suffix hlen _ hsuf
    cases n with
    | zero => exact absurd hlen (Nat.lt_irrefl 0)
    | succ m =>
      cases suffix with
      | nil => rfl
      | cons c cs =>
        simp only [List.nil_append, takeId]
        rw [if_neg]
        rw [hsuf c rfl]
        simp
  | cons c t ih =>
    intro suffix hlen hall hsuf
    cases n with
    | zero => exact absurd hlen (Nat.not_lt_zero _)
    | succ m =>
      rw [List.all_cons, Bool.and_eq_true] at hall
      obtain ⟨hc, ht⟩ := hall
      simp only [List.cons_append, takeId, List.append_eq]
      rw [if_pos hc, ih m suffix (by simpa using hlen) ht hsuf]
      rfl

set_option maxHeartbeats 2000000 in
/-- C4 amended: for each of the six URL shapes (with either scheme, and
with or without a `www.` subdomain for the five `youtube.com` shapes — the
`youtu.be` short-link pattern carries no `www.` group, so it matches only
without a subdomain), `extract_video_id` returns exactly the 11-character
identifier over the `[a-zA-Z0-9_-]` class matched positionally after the
shape's literal prefix, tolerating arbitrary trailing content; and a
candidate identifier of fewer than 11 class characters (ended by the end of
the string or a non-class character) is rejected by every pattern. -/
theorem C4_extract_id :
    (∀ p ∈ YOUTUBE_PATTERNS, ∀ (secure www : Bool) (id trailing : List Char),
      (p.www = false → www = false) →
      id.length = 11 → id.all isIdChar = true →
      extract_video_id (String.mk (urlChars secure www p.lit id trailing))
        = some (String.mk id))
    ∧ (∀ p ∈ YOUTUBE_PATTERNS, ∀ (secure www : Bool) (id suffix : List Char),
      (p.www = false → www = false) →
      id.length < 11 → id.all isIdChar = true →
      (∀ c, suffix.head? = some c → isIdChar c = false) →
      validate (String.mk (urlChars secure www p.lit id suffix)) = false) := by
  constructor
  · intro p hp secure www id trailing hw h11 hall
    have ht := takeId_of_all 11 id trailing h11 hall
    simp only [YOUTUBE_PATTERNS, List.mem_cons, List.not_mem_nil, or_false] at hp
    rcases hp with rfl | rfl | rfl | rfl | rfl | rfl <;>
      (try (have hww := hw rfl; subst hww)) <;>
      cases secure <;>
      (try cases www) <;>
      simp [extract_video_id, mk_data, urlChars, litWatch, litV, litEmbed,
        litShorts, litYoutuBe, litLive, YOUTUBE_PATTERNS, List.findSome?_cons,
        matchPattern, stripLit, dropS, dropWww, ht]
  · intro p hp secure www id suffix hw h11 hall hsuf
    have ht := takeId_short 11 id suffix h11 hall hsuf
    simp only [YOUTUBE_PATTERNS, List.mem_cons, List.not_mem_nil, or_false] at hp
    rcases hp with rfl | rfl | rfl | rfl | rfl | rfl <;>
      (try (have hww := hw rfl; subst hww)) <;>
      cases secure <;>
      (try cases www) <;>
      simp [validate, mk_data, urlChars, litWatch, litV, litEmbed,
        litShorts, litYoutuBe, litLive, YOUTUBE_PATTERNS,
        matchPattern, stripLit, dropS, dropWww, ht]

/-- Witness for C4: the canonical watch URL with scheme `https` and `www.`
yields its 11-character id. -/
theorem C4_extract_id_witness :
    extract_video_id "https://www.youtube.com/watch?v=dQw4w9WgXcQ"
      = some "dQw4w9WgXcQ" := by
  have h := C4_extract_id.1 ⟨true, litWatch⟩ (by simp [YOUTUBE_PATTERNS])
    true true ("dQw4w9WgXcQ".data) [] (fun hf => absurd hf (by decide))
    (by decide) (by decide)
  exact h

/-- C4 counterexample: extraction is not invariant under the presence of a
`www.` subdomain on the `youtu.be` short-link shape — its pattern has no
`(?:www\.)?` group, so the id is extracted without `www.` but the same URL
with `www.` matches nothing. -/
theorem C4_www_counterexample :
    extract_video_id "https://youtu.be/dQw4w9WgXcQ" = some "dQw4w9WgXcQ"
    ∧ extract_video_id "https://www.youtu.be/dQw4w9WgXcQ" = none := by
  constructor
  · decide
  · decide

end YtDl
